import Mathlib

set_option maxRecDepth 1000000

/-!
Verification of the TraceMap (What-The-Code) security-vulnerability scanner.

This file is a shallow embedding of the scanner engine found in
`src/securityScanner.ts` (pattern catalog, match location, comment filter,
per-file scan, workspace orchestration) and of the risk classifier found in
`src/localSearchProvider.ts` (`calculateRiskLevel`), together with theorems
about the engine's behaviour.

JavaScript regular expressions are embedded as an explicit syntax tree
(`Regex`) together with a backtracking matcher that mirrors ECMAScript
matching semantics for the features the catalog uses: literal characters
(with the `i` flag folded into the character predicates), character classes,
alternation (left-priority), greedy and lazy star (with the ECMAScript rule
that a quantifier iteration may not match the empty string), negative
lookahead, and word boundaries.  `RegExp.prototype.exec` on a `g`-flagged
regex is embedded as `execFrom`: it attempts a match at `lastIndex`,
advancing the attempt position one character at a time until a match is
found or the end of the input is passed.  Strings are modelled as `List
Char`; positions are 0-based offsets as in JavaScript.
-/

namespace TraceMap

/-- JavaScript `\w` (word character): ASCII letters, digits and underscore. -/
def wordChar (c : Char) : Bool := c.isAlphanum || c = '_'

/-- JavaScript `\s` (whitespace): space, tab, newline and the other common
whitespace code points (the catalog's inputs only ever contain spaces). -/
def spaceChar (c : Char) : Bool :=
  c = ' ' || c = '\t' || c = '\n' || c = '\r' || c = '\x0b' || c = '\x0c' || c = ' '

/-- Syntax of the regular-expression fragment used by the vulnerability
catalog of `securityScanner.ts`. -/
inductive Regex where
  /-- matches the empty string -/
  | eps : Regex
  /-- a single character satisfying the predicate (character classes,
  literal characters, `\w`, `\s`, `[^...]`, `[\s\S]`) -/
  | cls (p : Char → Bool) : Regex
  /-- sequencing -/
  | concat (r1 r2 : Regex) : Regex
  /-- alternation; like ECMAScript, the left branch has priority -/
  | alt (r1 r2 : Regex) : Regex
  /-- greedy Kleene star `*` -/
  | starG (r : Regex) : Regex
  /-- lazy Kleene star `*?` -/
  | starL (r : Regex) : Regex
  /-- negative lookahead `(?!r)` -/
  | lookNeg (r : Regex) : Regex
  /-- word boundary `\b` -/
  | wordB : Regex

/-- The character preceding the current position after consuming `n`
characters of `s`, where `prev` was the character preceding `s` (`none` at
the start of the input).  Needed for `\b`. -/
def prevAfter (prev : Option Char) (s : List Char) (n : Nat) : Option Char :=
  if n = 0 then prev else s[n-1]?

/-- Whether an optional character is a word character (`none`, the edge of
the input, counts as a non-word position). -/
def isWordOpt : Option Char → Bool
  | none => false
  | some c => wordChar c

/-- One layer of the matcher: `matPrev` resolves the star self-calls (it is
the matcher with one unit of star fuel less).  For a regex `r`, `matF
matPrev r prev s` lists all the numbers of characters `r` can consume at
the head of `s`, in ECMAScript backtracking priority order (the first
element is the length `exec` would report for a match anchored here).
`prev` is the character before `s`, for word boundaries.  Greedy star first
tries to iterate (the iteration must consume at least one character — the
ECMAScript empty-iteration rule) and offers the empty match last; lazy star
offers the empty match first.  Negative lookahead consumes nothing and
succeeds exactly when the inner regex has no match here. -/
def matF (matPrev : Regex → Option Char → List Char → List Nat) :
    Regex → Option Char → List Char → List Nat
  | .eps, _, _ => [0]
  | .cls p, _, s =>
      match s with
      | [] => []
      | c :: _ => if p c then [1] else []
  | .concat r1 r2, prev, s =>
      (matF matPrev r1 prev s).flatMap (fun n1 =>
        (matF matPrev r2 (prevAfter prev s n1) (s.drop n1)).map (fun n2 => n1 + n2))
  | .alt r1 r2, prev, s => matF matPrev r1 prev s ++ matF matPrev r2 prev s
  | .starG r, prev, s =>
      (((matF matPrev r prev s).filter (fun n => n ≠ 0)).flatMap (fun n1 =>
        (matPrev (.starG r) (prevAfter prev s n1) (s.drop n1)).map
          (fun n2 => n1 + n2))) ++ [0]
  | .starL r, prev, s =>
      0 :: ((matF matPrev r prev s).filter (fun n => n ≠ 0)).flatMap (fun n1 =>
        (matPrev (.starL r) (prevAfter prev s n1) (s.drop n1)).map
          (fun n2 => n1 + n2))
  | .lookNeg r, prev, s => if (matF matPrev r prev s).isEmpty then [0] else []
  | .wordB, prev, s =>
      if isWordOpt prev != isWordOpt s.head? then [0] else []

/-- The matcher with fuel: the fuel only decreases across star self-calls,
and every star iteration consumes at least one character, so fuel
`s.length + 1` is always sufficient and the base case is never reached from
`matchLens`. -/
def mat : Nat → Regex → Option Char → List Char → List Nat
  | 0 => fun _ _ _ => []
  | f+1 => matF (mat f)

/-- The possible match lengths of `r` anchored at the head of `s` (with
sufficient fuel), in priority order. -/
def matchLens (r : Regex) (prev : Option Char) (s : List Char) : List Nat :=
  mat (s.length + 1) r prev s

/-- One attempt pass of `RegExp.prototype.exec` on a `g` regex: starting at
position `i`, try to match at each successive position; on success return
`(index, length)` of the match (the length is the priority-first match, as
`exec` reports).  The fuel is the number of positions left to try. -/
def execFromAux (r : Regex) (s : List Char) : Nat → Nat → Option (Nat × Nat)
  | 0, _ => none
  | f+1, i =>
      if i > s.length then none
      else
        match (matchLens r (if i = 0 then none else s[i-1]?) (s.drop i)).head? with
        | some n => some (i, n)
        | none => execFromAux r s f (i+1)

/-- Embedding of `RegExp.prototype.exec` for a `g`-flagged regex with `lastIndex = start`:
returns `none` (JS `null`) when `start` is past the end of the input or no
match exists at or after `start`. -/
def execFrom (r : Regex) (s : List Char) (start : Nat) : Option (Nat × Nat) :=
  execFromAux r s (s.length + 1 - start) start

/-- The `while ((match = pattern.pattern.exec(content)) !== null)` loop of
`findPatternMatches` (securityScanner.ts, lines 337-366), collecting the
`(index, length)` of every reported match.  After each match, `exec` leaves
`lastIndex = index + length` — exactly as in JavaScript, with NO extra
advance on a zero-length match.  The loop is given explicit fuel; `none`
means the fuel ran out, i.e. the modelled loop did not exit within that many
iterations. -/
def execLoop (r : Regex) (s : List Char) : Nat → Nat → Option (List (Nat × Nat))
  | 0, _ => none
  | f+1, lastIndex =>
      match execFrom r s lastIndex with
      | none => some []
      | some (idx, len) =>
          (execLoop r s f (idx + len)).map (fun rest => (idx, len) :: rest)

/-- All matches reported by the exec loop started at `lastIndex = 0` with
the fuel `s.length + 2`, which `execLoop_isSome` below shows is sufficient
for every pattern that cannot match the empty string — in particular for
every pattern of the catalog. -/
def rawMatches (r : Regex) (s : List Char) : List (Nat × Nat) :=
  (execLoop r s (s.length + 2) 0).getD []

/-! ### Regex construction helpers

These build `Regex` values for the notations appearing in the catalog's
pattern literals.  Patterns carrying the `i` flag are built with the
`i`-variants, which compare characters case-insensitively (ECMAScript
canonicalisation, restricted to ASCII as all catalog patterns are ASCII). -/

/-- A literal character (case-sensitive). -/
def rchar (c : Char) : Regex := .cls (fun d => d = c)

/-- A literal character under the `i` flag. -/
def richar (c : Char) : Regex := .cls (fun d => d.toLower = c.toLower)

/-- A literal string (case-sensitive). -/
def rstr (s : String) : Regex := s.data.foldr (fun c r => .concat (rchar c) r) .eps

/-- A literal string under the `i` flag. -/
def ristr (s : String) : Regex := s.data.foldr (fun c r => .concat (richar c) r) .eps

/-- Sequencing of a list of regexes. -/
def rseq : List Regex → Regex
  | [] => .eps
  | [r] => r
  | r :: rs => .concat r (rseq rs)

/-- Alternation of a list of regexes, left-priority as in ECMAScript. -/
def ralts : List Regex → Regex
  | [] => .cls (fun _ => false)
  | [r] => r
  | r :: rs => .alt r (ralts rs)

/-- Greedy `r?`. -/
def ropt (r : Regex) : Regex := .alt r .eps

/-- Greedy `r+`. -/
def rplus (r : Regex) : Regex := .concat r (.starG r)

/-- Repetition `r` exactly `n` times. -/
def rrep : Nat → Regex → Regex
  | 0, _ => .eps
  | n+1, r => .concat r (rrep n r)

/-- Greedy `r{n,}`: at least `n` copies. -/
def ratLeast (n : Nat) (r : Regex) : Regex := .concat (rrep n r) (.starG r)

/-- A positive character class `[...]` (case-sensitive). -/
def rclass (cs : List Char) : Regex := .cls (fun d => cs.contains d)

/-- A negated character class `[^...]`. -/
def rnclass (cs : List Char) : Regex := .cls (fun d => !(cs.contains d))

/-- Whitespace class `\s`. -/
def rsp : Regex := .cls spaceChar

/-- Greedy whitespace run `\s*`. -/
def rspStar : Regex := .starG rsp

/-- Word-character class `\w`. -/
def rw : Regex := .cls wordChar

/-- Universal class `[\s\S]`: any character, including newlines. -/
def rany : Regex := .cls (fun _ => true)

/-! ### String helpers (JavaScript string methods on `List Char`) -/

/-- JavaScript `content.split('\n')`: split on the newline character.  The
result is never empty; `"".split('\n')` is `[""]`. -/
def splitNl : List Char → List (List Char)
  | [] => [[]]
  | c :: cs =>
      let rest := splitNl cs
      if c = '\n' then [] :: rest
      else
        match rest with
        | r :: rs => (c :: r) :: rs
        | [] => [[c]]

/-- JavaScript `s.lastIndexOf(c)` for a single character, as an `Option` (`none` is
JavaScript's `-1`). -/
def lastIdxOfChar (c : Char) : List Char → Option Nat
  | [] => none
  | a :: as =>
      match lastIdxOfChar c as with
      | some j => some (j+1)
      | none => if a = c then some 0 else none

/-- Whether `pat` occurs at the very start of `s`. -/
def startsWithL (pat s : List Char) : Bool := s.take pat.length = pat

/-- JavaScript `s.indexOf(pat)` as an `Option` (`none` is JavaScript's `-1`). -/
def firstOccIdx (pat : List Char) : List Char → Option Nat
  | [] => if pat.isEmpty then some 0 else none
  | s@(_ :: rest) =>
      if startsWithL pat s then some 0
      else (firstOccIdx pat rest).map (fun j => j+1)

/-- JavaScript `s.lastIndexOf(pat)` as an `Option` (`none` is JavaScript's `-1`). -/
def lastOccIdx (pat : List Char) : List Char → Option Nat
  | [] => if pat.isEmpty then some 0 else none
  | s@(_ :: rest) =>
      match lastOccIdx pat rest with
      | some j => some (j+1)
      | none => if startsWithL pat s then some 0 else none

/-- JavaScript `String.prototype.trim` (whitespace on both ends removed). -/
def trimJS (s : List Char) : List Char :=
  ((s.dropWhile spaceChar).reverse.dropWhile spaceChar).reverse

/-- The two-character sequence of a single-line comment marker. -/
def slashSlash : List Char := ['/', '/']

/-- The two-character sequence opening a block comment. -/
def slashStar : List Char := ['/', '*']

/-- The two-character sequence closing a block comment. -/
def starSlash : List Char := ['*', '/']

/-! ### The comment filter (`isInComment`, securityScanner.ts lines 371-388) -/

/-- The source's `isInComment(line, column)`: decides whether the match starting at the
given 1-based `column` of `line` sits inside a comment.  Faithful to the
source: `beforeColumn = line.substring(0, column)`; a single-line marker
`//` found in `beforeColumn` at an index `< column` suppresses; otherwise an
unterminated block opener in `beforeColumn` (`lastIndexOf('/' + '*') >
lastIndexOf('*' + '/')`, with `-1` for absent, here `none`) suppresses.
Note the filter sees only the current line. -/
def isInComment (line : List Char) (column : Nat) : Bool :=
  let beforeColumn := line.take column
  let singleCommentIndex := firstOccIdx slashSlash beforeColumn
  if (match singleCommentIndex with
      | some j => decide (j < column)
      | none => false) then
    true
  else
    let multiCommentStart := lastOccIdx slashStar beforeColumn
    let multiCommentEnd := lastOccIdx starSlash beforeColumn
    match multiCommentStart, multiCommentEnd with
    | some j, some k => decide (j > k)
    | some _, none => true
    | none, _ => false

/-! ### Data model (`types.ts`) -/

/-- The `SecurityVulnerabilityType` union of `types.ts`: the full kind
enumeration, as the list of its sixteen string members. -/
def securityVulnerabilityTypes : List String :=
  ["hardcoded-secret", "sql-injection", "xss-vulnerability",
   "command-injection", "path-traversal", "insecure-random", "weak-crypto",
   "unsafe-eval", "prototype-pollution", "xxe-vulnerability",
   "open-redirect", "insecure-deserialization", "sensitive-data-exposure",
   "cors-misconfiguration", "csrf-vulnerability", "information-disclosure"]

/-- One rule of the catalog (`VulnerabilityPattern`, securityScanner.ts
lines 7-17).  `type`, `severity` and `confidence` are string-literal union
types in the source and are modelled as the corresponding strings. -/
structure VulnerabilityPattern where
  type : String
  severity : String
  pattern : Regex
  message : String
  description : String
  recommendation : String
  cweId : Option String := none
  owaspCategory : Option String := none
  confidence : String

/-- A confirmed match without its file fields
(`Omit<SecurityIssue, 'filePath' | 'relativePath'>`). -/
structure IssueCore where
  type : String
  severity : String
  line : Nat
  column : Nat
  code : String
  message : String
  description : String
  recommendation : String
  cweId : Option String
  owaspCategory : Option String
  confidence : String
  deriving DecidableEq, Repr

/-- The `SecurityIssue` structure of `types.ts`. -/
structure SecurityIssue extends IssueCore where
  filePath : String
  relativePath : String
  deriving DecidableEq, Repr

/-- The `SecurityScanResult` structure of `types.ts`.  `scanDuration` (wall-clock
milliseconds) and `timestamp` (a `Date`) are modelled as natural numbers
supplied by the caller, since wall-clock time is outside the embedding. -/
structure SecurityScanResult where
  issues : List SecurityIssue
  filesScanned : Nat
  totalIssues : Nat
  criticalCount : Nat
  highCount : Nat
  mediumCount : Nat
  lowCount : Nat
  scanDuration : Nat
  timestamp : Nat
  deriving DecidableEq, Repr

/-! ### The rule catalog (`initializePatterns`, securityScanner.ts lines 28-243)

Each regex literal of the source is transcribed into the `Regex` syntax.
Characters that the hard rules of this development prefer escaped are
written with `\x` escapes: `\x7b` is the opening brace, `\x7d` the closing
brace, `\x60` the backtick. -/

/-- Group 1 of the first hardcoded-secret pattern:
`(password|passwd|pwd|secret|token|api[_-]?key|apikey|access[_-]?key|private[_-]?key|client[_-]?secret|auth[_-]?token)`
under the `i` flag. -/
def secretKeywordAlt : Regex :=
  ralts [ristr "password", ristr "passwd", ristr "pwd", ristr "secret",
    ristr "token", rseq [ristr "api", ropt (rclass ['_', '-']), ristr "key"],
    ristr "apikey", rseq [ristr "access", ropt (rclass ['_', '-']), ristr "key"],
    rseq [ristr "private", ropt (rclass ['_', '-']), ristr "key"],
    rseq [ristr "client", ropt (rclass ['_', '-']), ristr "secret"],
    rseq [ristr "auth", ropt (rclass ['_', '-']), ristr "token"]]

/-- The negative lookahead of the first hardcoded-secret pattern:
`(?!(?:process\.env|config\.|CONFIG\.|import\.|require\(|<%=|\x7b\x7b|%\x7b))`
under the `i` flag. -/
def secretValueLookNeg : Regex :=
  .lookNeg (ralts [ristr "process.env", ristr "config.", ristr "CONFIG.",
    ristr "import.", ristr "require(", ristr "<%=",
    rseq [richar '\x7b', richar '\x7b'], rseq [richar '%', richar '\x7b']])

/-- Pattern of catalog rule 1 (hardcoded-secret), flags `gi`. -/
def hardcodedSecretPat : Regex :=
  rseq [secretKeywordAlt, rspStar, rclass ['=', ':'], rspStar,
    rclass ['\'', '"'], secretValueLookNeg,
    ratLeast 8 (rnclass ['\'', '"', '\n']), rclass ['\'', '"']]

/-- Pattern of catalog rule 2 (hardcoded-secret, AWS):
`(?:aws_access_key_id|aws_secret_access_key|AKIA[0-9A-Z]\x7b16\x7d)`, flags `gi`
(under `i`, the class `[0-9A-Z]` also matches lowercase ASCII letters). -/
def awsKeyPat : Regex :=
  ralts [ristr "aws_access_key_id", ristr "aws_secret_access_key",
    rseq [ristr "AKIA", rrep 16 (.cls (fun c => c.isAlphanum))]]

/-- The suffix alternation `(?:body|query|params)` under the `i` flag. -/
def reqFieldI : Regex := ralts [ristr "body", ristr "query", ristr "params"]

/-- The suffix alternation `(?:body|query|params)`, case-sensitive. -/
def reqFieldS : Regex := ralts [rstr "body", rstr "query", rstr "params"]

/-- Pattern of catalog rule 3 (sql-injection, concatenation), flags `gi`:
`(?:execute|query|exec|executeSql|rawQuery)\s*\(\s*[\x60'"]?\s*(?:SELECT|INSERT|UPDATE|DELETE|DROP|CREATE)[\s\S]*?\+\s*(?:\w+|req\.(?:body|query|params))`. -/
def sqlConcatPat : Regex :=
  rseq [ralts [ristr "execute", ristr "query", ristr "exec",
      ristr "executeSql", ristr "rawQuery"],
    rspStar, rchar '(', rspStar, ropt (rclass ['\x60', '\'', '"']), rspStar,
    ralts [ristr "SELECT", ristr "INSERT", ristr "UPDATE", ristr "DELETE",
      ristr "DROP", ristr "CREATE"],
    .starL rany, rchar '+', rspStar,
    ralts [rplus rw, rseq [ristr "req.", reqFieldI]]]

/-- Pattern of catalog rule 4 (sql-injection, template literal), flag `g`:
`\$\x7b[^\x7d]*(?:req\.(?:body|query|params)|request\.(?:body|query|params)|input|userInput)[^\x7d]*\x7d`. -/
def sqlTemplatePat : Regex :=
  rseq [rchar '$', rchar '\x7b', .starG (rnclass ['\x7d']),
    ralts [rseq [rstr "req.", reqFieldS], rseq [rstr "request.", reqFieldS],
      rstr "input", rstr "userInput"],
    .starG (rnclass ['\x7d']), rchar '\x7d']

/-- Pattern of catalog rule 5 (xss-vulnerability, innerHTML), flag `g`:
`\.innerHTML\s*=\s*(?!\s*['""])`. -/
def innerHtmlPat : Regex :=
  rseq [rstr ".innerHTML", rspStar, rchar '=', rspStar,
    .lookNeg (rseq [rspStar, rclass ['\'', '"']])]

/-- Pattern of catalog rule 6 (xss-vulnerability, React), flag `g`:
`dangerouslySetInnerHTML\s*=\s*\x7b\s*\x7b?\s*__html:`. -/
def dangerousHtmlPat : Regex :=
  rseq [rstr "dangerouslySetInnerHTML", rspStar, rchar '=', rspStar,
    rchar '\x7b', rspStar, ropt (rchar '\x7b'), rspStar, rstr "__html:"]

/-- Pattern of catalog rule 7 (command-injection), flags `gi`:
`(?:exec|execSync|spawn|execFile|child_process)\s*\([^)]*(?:\+|\x60|\$\x7b)[^)]*(?:req\.(?:body|query|params)|input|userInput)`. -/
def commandInjectionPat : Regex :=
  rseq [ralts [ristr "exec", ristr "execSync", ristr "spawn",
      ristr "execFile", ristr "child_process"],
    rspStar, rchar '(', .starG (rnclass [')']),
    ralts [rchar '+', rchar '\x60', rseq [rchar '$', rchar '\x7b']],
    .starG (rnclass [')']),
    ralts [rseq [ristr "req.", reqFieldI], ristr "input", ristr "userInput"]]

/-- Pattern of catalog rule 8 (path-traversal), flags `gi`:
`(?:readFile|readFileSync|writeFile|writeFileSync|createReadStream|createWriteStream)\s*\([^)]*(?:req\.(?:body|query|params)|input|userInput)(?:\.|\+|\[)`. -/
def pathTraversalPat : Regex :=
  rseq [ralts [ristr "readFile", ristr "readFileSync", ristr "writeFile",
      ristr "writeFileSync", ristr "createReadStream", ristr "createWriteStream"],
    rspStar, rchar '(', .starG (rnclass [')']),
    ralts [rseq [ristr "req.", reqFieldI], ristr "input", ristr "userInput"],
    ralts [rchar '.', rchar '+', rchar '[']]

/-- Pattern of catalog rule 9 (unsafe-eval, eval), flag `g`: `\beval\s*\(`. -/
def evalPat : Regex := rseq [.wordB, rstr "eval", rspStar, rchar '(']

/-- Pattern of catalog rule 10 (unsafe-eval, Function constructor), flag `g`:
`new\s+Function\s*\(`. -/
def functionCtorPat : Regex :=
  rseq [rstr "new", rplus rsp, rstr "Function", rspStar, rchar '(']

/-- Pattern of catalog rule 11 (insecure-random), flag `g`:
`Math\.random\s*\(\)`. -/
def mathRandomPat : Regex :=
  rseq [rstr "Math.random", rspStar, rchar '(', rchar ')']

/-- Pattern of catalog rule 12 (weak-crypto), flags `gi`:
`createCipher|createDecipher|createHash\s*\(\s*['"]md5['"]|createHash\s*\(\s*['"]sha1['"]`. -/
def weakCryptoPat : Regex :=
  ralts [ristr "createCipher", ristr "createDecipher",
    rseq [ristr "createHash", rspStar, rchar '(', rspStar,
      rclass ['\'', '"'], ristr "md5", rclass ['\'', '"']],
    rseq [ristr "createHash", rspStar, rchar '(', rspStar,
      rclass ['\'', '"'], ristr "sha1", rclass ['\'', '"']]]

/-- Pattern of catalog rule 13 (prototype-pollution), flag `g`:
`(?:Object|obj|\w+)\[['"]__proto__['"]\]|\[['"]constructor['"]\]\[['"]prototype['"]\]`. -/
def protoPollutionPat : Regex :=
  .alt
    (rseq [ralts [rstr "Object", rstr "obj", rplus rw],
      rchar '[', rclass ['\'', '"'], rstr "__proto__", rclass ['\'', '"'],
      rchar ']'])
    (rseq [rchar '[', rclass ['\'', '"'], rstr "constructor",
      rclass ['\'', '"'], rchar ']', rchar '[', rclass ['\'', '"'],
      rstr "prototype", rclass ['\'', '"'], rchar ']'])

/-- Pattern of catalog rule 14 (open-redirect), flags `gi`:
`(?:window\.location|location\.href|location\.replace)\s*=\s*(?:req\.(?:body|query|params)|input|userInput)`. -/
def openRedirectPat : Regex :=
  rseq [ralts [ristr "window.location", ristr "location.href",
      ristr "location.replace"],
    rspStar, rchar '=', rspStar,
    ralts [rseq [ristr "req.", reqFieldI], ristr "input", ristr "userInput"]]

/-- Pattern of catalog rule 15 (sensitive-data-exposure), flags `gi`:
`console\.log\s*\([^)]*(?:password|token|secret|creditCard|ssn|apiKey)`. -/
def consoleLogSecretPat : Regex :=
  rseq [ristr "console.log", rspStar, rchar '(', .starG (rnclass [')']),
    ralts [ristr "password", ristr "token", ristr "secret",
      ristr "creditCard", ristr "ssn", ristr "apiKey"]]

/-- Pattern of catalog rule 16 (cors-misconfiguration), flags `gi`:
`['"]Access-Control-Allow-Origin['"]\s*[,:]?\s*['"]?\*['"]?`. -/
def corsPat : Regex :=
  rseq [rclass ['\'', '"'], ristr "Access-Control-Allow-Origin", rspStar,
    ropt (rclass [',', ':']), rspStar, ropt (rclass ['\'', '"']),
    rchar '*', ropt (rclass ['\'', '"'])]

/-- Pattern of catalog rule 17 (information-disclosure), flag `g`:
`\.stack\s*\)`. -/
def stackTracePat : Regex := rseq [rstr ".stack", rspStar, rchar ')']

/-- The rule catalog, `initializePatterns()` of securityScanner.ts
(lines 28-243), in source order with all metadata copied verbatim. -/
def initializePatterns : List VulnerabilityPattern :=
  [{ type := "hardcoded-secret", severity := "critical",
     pattern := hardcodedSecretPat,
     message := "Hardcoded secret detected",
     description := "Sensitive credentials found directly in source code",
     recommendation := "Use environment variables or a secure secret management system",
     cweId := some "CWE-798",
     owaspCategory := some "A02:2021 - Cryptographic Failures",
     confidence := "high" },
   { type := "hardcoded-secret", severity := "critical",
     pattern := awsKeyPat,
     message := "AWS credentials hardcoded",
     description := "AWS access keys found in source code",
     recommendation := "Use AWS IAM roles or AWS Secrets Manager",
     cweId := some "CWE-798",
     owaspCategory := some "A02:2021 - Cryptographic Failures",
     confidence := "high" },
   { type := "sql-injection", severity := "critical",
     pattern := sqlConcatPat,
     message := "SQL injection vulnerability",
     description := "SQL query constructed using string concatenation with user input",
     recommendation := "Use parameterized queries or prepared statements",
     cweId := some "CWE-89",
     owaspCategory := some "A03:2021 - Injection",
     confidence := "high" },
   { type := "sql-injection", severity := "critical",
     pattern := sqlTemplatePat,
     message := "Potential SQL injection via template literals",
     description := "SQL query uses template literals with user input",
     recommendation := "Use parameterized queries instead of template literals",
     cweId := some "CWE-89",
     owaspCategory := some "A03:2021 - Injection",
     confidence := "medium" },
   { type := "xss-vulnerability", severity := "high",
     pattern := innerHtmlPat,
     message := "XSS vulnerability via innerHTML",
     description := "Setting innerHTML with potentially unsafe content",
     recommendation := "Use textContent or sanitize HTML with DOMPurify",
     cweId := some "CWE-79",
     owaspCategory := some "A03:2021 - Injection",
     confidence := "medium" },
   { type := "xss-vulnerability", severity := "high",
     pattern := dangerousHtmlPat,
     message := "React XSS vulnerability",
     description := "Using dangerouslySetInnerHTML without sanitization",
     recommendation := "Sanitize HTML content or use safer alternatives",
     cweId := some "CWE-79",
     owaspCategory := some "A03:2021 - Injection",
     confidence := "medium" },
   { type := "command-injection", severity := "critical",
     pattern := commandInjectionPat,
     message := "Command injection vulnerability",
     description := "Executing system commands with unsanitized user input",
     recommendation := "Avoid executing user input; use allowlists or safer alternatives",
     cweId := some "CWE-78",
     owaspCategory := some "A03:2021 - Injection",
     confidence := "high" },
   { type := "path-traversal", severity := "high",
     pattern := pathTraversalPat,
     message := "Path traversal vulnerability",
     description := "File operations with unsanitized user-provided paths",
     recommendation := "Validate and sanitize file paths; use allowlists",
     cweId := some "CWE-22",
     owaspCategory := some "A01:2021 - Broken Access Control",
     confidence := "high" },
   { type := "unsafe-eval", severity := "critical",
     pattern := evalPat,
     message := "Unsafe use of eval()",
     description := "eval() can execute arbitrary code and is extremely dangerous",
     recommendation := "Remove eval() and use safer alternatives like JSON.parse()",
     cweId := some "CWE-95",
     owaspCategory := some "A03:2021 - Injection",
     confidence := "high" },
   { type := "unsafe-eval", severity := "critical",
     pattern := functionCtorPat,
     message := "Unsafe use of Function constructor",
     description := "Function constructor can execute arbitrary code like eval()",
     recommendation := "Avoid dynamic code execution; use predefined functions",
     cweId := some "CWE-95",
     owaspCategory := some "A03:2021 - Injection",
     confidence := "high" },
   { type := "insecure-random", severity := "medium",
     pattern := mathRandomPat,
     message := "Insecure random number generation",
     description := "Math.random() is not cryptographically secure",
     recommendation := "Use crypto.randomBytes() for security-sensitive operations",
     cweId := some "CWE-330",
     owaspCategory := some "A02:2021 - Cryptographic Failures",
     confidence := "medium" },
   { type := "weak-crypto", severity := "high",
     pattern := weakCryptoPat,
     message := "Weak cryptographic algorithm",
     description := "Using deprecated or weak cryptographic methods (MD5, SHA1, DES)",
     recommendation := "Use strong algorithms: AES-256-GCM, SHA-256, or better",
     cweId := some "CWE-327",
     owaspCategory := some "A02:2021 - Cryptographic Failures",
     confidence := "high" },
   { type := "prototype-pollution", severity := "high",
     pattern := protoPollutionPat,
     message := "Potential prototype pollution",
     description := "Modifying __proto__ or constructor.prototype can lead to security issues",
     recommendation := "Avoid dynamic property access on objects; use Object.create(null)",
     cweId := some "CWE-1321",
     owaspCategory := some "A08:2021 - Software and Data Integrity Failures",
     confidence := "high" },
   { type := "open-redirect", severity := "medium",
     pattern := openRedirectPat,
     message := "Open redirect vulnerability",
     description := "Redirecting to user-controlled URLs without validation",
     recommendation := "Validate redirect URLs against an allowlist",
     cweId := some "CWE-601",
     owaspCategory := some "A01:2021 - Broken Access Control",
     confidence := "medium" },
   { type := "sensitive-data-exposure", severity := "high",
     pattern := consoleLogSecretPat,
     message := "Sensitive data in console logs",
     description := "Logging sensitive information to console",
     recommendation := "Remove sensitive data from logs or use secure logging",
     cweId := some "CWE-532",
     owaspCategory := some "A04:2021 - Insecure Design",
     confidence := "high" },
   { type := "cors-misconfiguration", severity := "medium",
     pattern := corsPat,
     message := "Insecure CORS configuration",
     description := "CORS configured to allow all origins (*)",
     recommendation := "Specify allowed origins explicitly; avoid wildcard",
     cweId := some "CWE-942",
     owaspCategory := some "A05:2021 - Security Misconfiguration",
     confidence := "high" },
   { type := "information-disclosure", severity := "low",
     pattern := stackTracePat,
     message := "Stack trace exposure",
     description := "Exposing error stack traces can reveal sensitive information",
     recommendation := "Log stack traces internally; show generic errors to users",
     cweId := some "CWE-209",
     owaspCategory := some "A05:2021 - Security Misconfiguration",
     confidence := "low" }]

/-- The scanner's rule list (`this.vulnerabilityPatterns`,
assigned once in the constructor). -/
def vulnerabilityPatterns : List VulnerabilityPattern := initializePatterns

/-! ### Match location and per-file scan
(`findPatternMatches` and `scanFile`, securityScanner.ts lines 304-369) -/

/-- The 1-based line number of offset `idx` in `content`
(`content.substring(0, match.index).split('\n').length`, lines 340-341). -/
def lineNumberAt (content : List Char) (idx : Nat) : Nat :=
  (splitNl (content.take idx)).length

/-- The 1-based column of offset `idx` in `content` (`match.index -
(beforeMatch.lastIndexOf('\n') + 1) + 1`, lines 345-346; `lastIndexOf`
yields `-1` when there is no newline before the match, making the line
start 0). -/
def columnAt (content : List Char) (idx : Nat) : Nat :=
  let lineStart :=
    match lastIdxOfChar '\n' (content.take idx) with
    | some j => j + 1
    | none => 0
  idx - lineStart + 1

/-- The body of `findPatternMatches(content, lines, pattern)`: for every
match of the exec loop, the line number is `content.substring(0,
match.index).split('\n').length`, the line content is `lines[lineNumber -
1] || ''`, the column is `match.index - (beforeMatch.lastIndexOf('\n') + 1)
+ 1`, and the match is kept only when `isInComment(lineContent, column)` is
false; the issue copies the rule's metadata and trims the line as its
evidence snippet. -/
def findPatternMatches (content : List Char) (lines : List (List Char))
    (pattern : VulnerabilityPattern) : List IssueCore :=
  (rawMatches pattern.pattern content).filterMap (fun m =>
    let lineNumber := lineNumberAt content m.1
    let lineContent := lines.getD (lineNumber - 1) []
    let column := columnAt content m.1
    if isInComment lineContent column then none
    else some
      { type := pattern.type, severity := pattern.severity,
        line := lineNumber, column := column,
        code := (trimJS lineContent).asString,
        message := pattern.message, description := pattern.description,
        recommendation := pattern.recommendation, cweId := pattern.cweId,
        owaspCategory := pattern.owaspCategory,
        confidence := pattern.confidence })

/-- The pattern loop of `scanFile` applied to a file content: the file's
text is split into lines once, and every catalog rule is run through
`findPatternMatches`, in catalog order. -/
def scanContent (content : List Char) : List IssueCore :=
  let lines := splitNl content
  vulnerabilityPatterns.flatMap (fun pattern =>
    findPatternMatches content lines pattern)

/-- The source's `scanFile(filePath, relativePath)` (lines 304-325).  The
`fs.promises.readFile` call is modelled by the `readResult` argument:
`none` means the read threw (unreadable/undecodable file).  The body's own
`try/catch` swallows that error after logging it to the console, so the
function always returns normally - on a failed read, with the empty issue
list.  Each issue of a successful scan carries the file's paths. -/
def scanFile (filePath relativePath : String)
    (readResult : Option (List Char)) : List SecurityIssue :=
  match readResult with
  | none => []
  | some content =>
      (scanContent content).map (fun m =>
        { toIssueCore := m, filePath := filePath,
          relativePath := relativePath })

/-! ### Workspace orchestration
(`scanWorkspace`, securityScanner.ts lines 245-302) -/

/-- One record of the file collection handed to the orchestrator, with the
outcome of reading the file attached (`none`: the read throws). -/
structure CollectedFile where
  filePath : String
  relativePath : String
  readResult : Option (List Char)

/-- The part of the path after the last `/` (trailing slashes ignored), as
in Node's posix path parsing. -/
def basenameChars (p : List Char) : List Char :=
  let trimmed := (p.reverse.dropWhile (fun c => c = '/')).reverse
  match lastIdxOfChar '/' trimmed with
  | none => trimmed
  | some j => trimmed.drop (j+1)

/-- Node's `path.extname`: the basename's suffix from its last `.`; empty
when there is no dot, when the only dot leads a dotfile, or for `..`. -/
def extname (p : String) : String :=
  let base := basenameChars p.data
  match lastIdxOfChar '.' base with
  | none => ""
  | some d =>
      if d = 0 then ""
      else if base = ['.', '.'] then ""
      else (base.drop d).asString

/-- JavaScript `toLowerCase` (ASCII, which is all that reaches it here). -/
def lowerStr (s : String) : String := ⟨s.data.map Char.toLower⟩

/-- The extension allowlist of `scanWorkspace` (line 260). -/
def jsTsExts : List String := [".js", ".jsx", ".ts", ".tsx", ".mjs", ".cjs"]

/-- The file filter of `scanWorkspace` (lines 258-261):
`['.js', '.jsx', '.ts', '.tsx', '.mjs', '.cjs'].includes(path.extname(f.filePath).toLowerCase())`. -/
def isJsTsFile (f : CollectedFile) : Bool :=
  jsTsExts.contains (lowerStr (extname f.filePath))

/-- The `for (const file of jstsFiles)` loop of `scanWorkspace` (lines
265-278): accumulates each file's issues and counts the file in
`filesScanned`.  The loop wraps each `scanFile` call in `try/catch`, with
`filesScanned++` inside the `try` - but `scanFile` catches its own errors
internally and never throws, so the `catch` branch is unreachable and every
file of the filtered list is counted. -/
def scanLoop : List CollectedFile → List SecurityIssue × Nat
  | [] => ([], 0)
  | file :: rest =>
      let fileIssues := scanFile file.filePath file.relativePath file.readResult
      let next := scanLoop rest
      (fileIssues ++ next.1, next.2 + 1)

/-- The source's `scanWorkspace()` (lines 245-302).  `scanDuration` and
`timestamp` stand for the wall-clock values measured by the source. -/
def scanWorkspace (files : List CollectedFile)
    (scanDuration timestamp : Nat) : SecurityScanResult :=
  let jstsFiles := files.filter isJsTsFile
  let scanned := scanLoop jstsFiles
  { issues := scanned.1
    filesScanned := scanned.2
    totalIssues := scanned.1.length
    criticalCount := (scanned.1.filter (fun i => i.severity == "critical")).length
    highCount := (scanned.1.filter (fun i => i.severity == "high")).length
    mediumCount := (scanned.1.filter (fun i => i.severity == "medium")).length
    lowCount := (scanned.1.filter (fun i => i.severity == "low")).length
    scanDuration := scanDuration
    timestamp := timestamp }

/-! ### Risk classifier (`calculateRiskLevel`, localSearchProvider.ts
lines 434-448) -/

/-- The report generator's `calculateRiskLevel(result)`. -/
def calculateRiskLevel (result : SecurityScanResult) : String :=
  if result.criticalCount > 0 then "CRITICAL"
  else if result.highCount ≥ 5 then "HIGH"
  else if result.highCount > 0 || result.mediumCount ≥ 10 then "MEDIUM"
  else if result.mediumCount > 0 || result.lowCount > 0 then "LOW"
  else "CLEAN"

/-! ### The scan with the regexes' mutable state made explicit

The `RegExp` objects of the catalog live in `this.vulnerabilityPatterns`
and are shared by every scan; their only mutable state is `lastIndex`.  The
following variants thread one stored `lastIndex` per rule through the whole
scan, so that statements about scans running one after the other can talk
about the state the first scan leaves behind. -/

/-- The source's `findPatternMatches` with the rule's stored `lastIndex` as
explicit state.  Line 335 (`pattern.pattern.lastIndex = 0`) discards the
incoming cursor before the loop, and the final failing `exec` of the loop
resets the cursor of a `g`-flagged regex to 0, so the outgoing state is 0. -/
def findPatternMatchesSt (content : List Char) (lines : List (List Char))
    (pattern : VulnerabilityPattern) (_lastIndex : Nat) :
    List IssueCore × Nat :=
  (findPatternMatches content lines pattern, 0)

/-- The `for (const pattern of this.vulnerabilityPatterns)` loop of
`scanFile`, threading the per-rule cursor list. -/
def scanPatternsSt (content : List Char) (lines : List (List Char)) :
    List VulnerabilityPattern → List Nat → List IssueCore × List Nat
  | [], _ => ([], [])
  | p :: ps, sts =>
      let first := findPatternMatchesSt content lines p (sts.headD 0)
      let rest := scanPatternsSt content lines ps sts.tail
      (first.1 ++ rest.1, first.2 :: rest.2)

/-- State-threaded `scanFile`.  On a failed read no rule is executed, so
the stored cursors are unchanged. -/
def scanFileSt (filePath relativePath : String)
    (readResult : Option (List Char)) (sts : List Nat) :
    List SecurityIssue × List Nat :=
  match readResult with
  | none => ([], sts)
  | some content =>
      let lines := splitNl content
      let scanned := scanPatternsSt content lines vulnerabilityPatterns sts
      (scanned.1.map (fun m =>
        { toIssueCore := m, filePath := filePath,
          relativePath := relativePath }), scanned.2)

/-- State-threaded file loop of `scanWorkspace`. -/
def scanLoopSt : List CollectedFile → List Nat →
    (List SecurityIssue × Nat) × List Nat
  | [], sts => (([], 0), sts)
  | file :: rest, sts =>
      let first := scanFileSt file.filePath file.relativePath file.readResult sts
      let next := scanLoopSt rest first.2
      ((first.1 ++ next.1.1, next.1.2 + 1), next.2)

/-- State-threaded `scanWorkspace`: also returns the per-rule cursors the
scan leaves stored in the shared `RegExp` objects. -/
def scanWorkspaceSt (files : List CollectedFile) (sts : List Nat)
    (scanDuration timestamp : Nat) : SecurityScanResult × List Nat :=
  let jstsFiles := files.filter isJsTsFile
  let scanned := scanLoopSt jstsFiles sts
  ({ issues := scanned.1.1
     filesScanned := scanned.1.2
     totalIssues := scanned.1.1.length
     criticalCount := (scanned.1.1.filter (fun i => i.severity == "critical")).length
     highCount := (scanned.1.1.filter (fun i => i.severity == "high")).length
     mediumCount := (scanned.1.1.filter (fun i => i.severity == "medium")).length
     lowCount := (scanned.1.1.filter (fun i => i.severity == "low")).length
     scanDuration := scanDuration
     timestamp := timestamp }, scanned.2)

/-! ### Derived definitions used by the statements -/

/-- Syntactic under-approximation of "this regex can never match the empty
string".  Every pattern of the catalog is non-nullable. -/
def nonNullable : Regex → Bool
  | .eps => false
  | .cls _ => true
  | .concat r1 r2 => nonNullable r1 || nonNullable r2
  | .alt r1 r2 => nonNullable r1 && nonNullable r2
  | .starG _ => false
  | .starL _ => false
  | .lookNeg _ => false
  | .wordB => false

/-- The proposition that `pat` occurs in `s` at 0-based offset `j`
(entirely inside `s` whenever `pat` is nonempty). -/
def occursAtPos (pat s : List Char) (j : Nat) : Prop :=
  (s.drop j).take pat.length = pat

/-- The comment-filter condition as the code actually implements it, stated
declaratively: the single-line marker occurs (entirely) within the first
`column` characters of the match's own line, or a block opener occurs there
with no closer at or after it within that same prefix.  The filter never
inspects prior lines. -/
def suppressedSpec (line : List Char) (column : Nat) : Prop :=
  (∃ j, occursAtPos slashSlash (line.take column) j) ∨
  (∃ j, occursAtPos slashStar (line.take column) j ∧
    ∀ k, occursAtPos starSlash (line.take column) k → k < j)

/-! ### Supporting lemmas about the matcher and the exec loop -/

lemma matF_pos (matPrev : Regex → Option Char → List Char → List Nat) :
    ∀ (r : Regex) (prev : Option Char) (s : List Char) (n : Nat),
      nonNullable r = true → n ∈ matF matPrev r prev s → 0 < n := by
  intro r
  induction r with
  | eps => intro prev s n h _; simp [nonNullable] at h
  | cls p =>
      intro prev s n _ hm
      cases s with
      | nil => simp [matF] at hm
      | cons c cs =>
          simp only [matF] at hm
          by_cases hc : p c <;> simp [hc] at hm
          omega
  | concat r1 r2 ih1 ih2 =>
      intro prev s n h hm
      simp only [matF, List.mem_flatMap, List.mem_map] at hm
      obtain ⟨n1, h1, n2, h2, rfl⟩ := hm
      simp only [nonNullable, Bool.or_eq_true] at h
      rcases h with h | h
      · have := ih1 prev s n1 h h1; omega
      · have := ih2 _ _ n2 h h2; omega
  | alt r1 r2 ih1 ih2 =>
      intro prev s n h hm
      simp only [nonNullable, Bool.and_eq_true] at h
      simp only [matF, List.mem_append] at hm
      rcases hm with hm | hm
      · exact ih1 prev s n h.1 hm
      · exact ih2 prev s n h.2 hm
  | starG r ih => intro prev s n h _; simp [nonNullable] at h
  | starL r ih => intro prev s n h _; simp [nonNullable] at h
  | lookNeg r ih => intro prev s n h _; simp [nonNullable] at h
  | wordB => intro prev s n h _; simp [nonNullable] at h

lemma mat_pos : ∀ (f : Nat) (r : Regex) (prev : Option Char) (s : List Char)
    (n : Nat), nonNullable r = true → n ∈ mat f r prev s → 0 < n := by
  intro f
  cases f with
  | zero => intro r prev s n _ hm; simp [mat] at hm
  | succ f => exact matF_pos (mat f)

lemma matF_le (matPrev : Regex → Option Char → List Char → List Nat)
    (hprev : ∀ (r : Regex) (prev : Option Char) (s : List Char) (n : Nat),
      n ∈ matPrev r prev s → n ≤ s.length) :
    ∀ (r : Regex) (prev : Option Char) (s : List Char) (n : Nat),
      n ∈ matF matPrev r prev s → n ≤ s.length := by
  intro r
  induction r with
  | eps => intro prev s n hm; simp [matF] at hm; omega
  | cls p =>
      intro prev s n hm
      cases s with
      | nil => simp [matF] at hm
      | cons c cs =>
          simp only [matF] at hm
          by_cases hc : p c <;> simp [hc] at hm
          simp [hm]
  | concat r1 r2 ih1 ih2 =>
      intro prev s n hm
      simp only [matF, List.mem_flatMap, List.mem_map] at hm
      obtain ⟨n1, h1, n2, h2, rfl⟩ := hm
      have e1 := ih1 prev s n1 h1
      have e2 := ih2 _ _ n2 h2
      rw [List.length_drop] at e2
      omega
  | alt r1 r2 ih1 ih2 =>
      intro prev s n hm
      simp only [matF, List.mem_append] at hm
      rcases hm with hm | hm
      · exact ih1 prev s n hm
      · exact ih2 prev s n hm
  | starG r ih =>
      intro prev s n hm
      simp only [matF, List.mem_append, List.mem_flatMap, List.mem_map,
        List.mem_filter] at hm
      rcases hm with ⟨n1, ⟨h1, -⟩, n2, h2, rfl⟩ | hm
      · have e1 := ih prev s n1 h1
        have e2 := hprev _ _ _ n2 h2
        rw [List.length_drop] at e2
        omega
      · simp at hm; omega
  | starL r ih =>
      intro prev s n hm
      simp only [matF, List.mem_cons, List.mem_flatMap, List.mem_map,
        List.mem_filter] at hm
      rcases hm with rfl | ⟨n1, ⟨h1, -⟩, n2, h2, rfl⟩
      · omega
      · have e1 := ih prev s n1 h1
        have e2 := hprev _ _ _ n2 h2
        rw [List.length_drop] at e2
        omega
  | lookNeg r ih =>
      intro prev s n hm
      simp only [matF] at hm
      split at hm <;> simp at hm
      omega
  | wordB =>
      intro prev s n hm
      simp only [matF] at hm
      split at hm <;> simp at hm
      omega

lemma mat_le : ∀ (f : Nat) (r : Regex) (prev : Option Char) (s : List Char)
    (n : Nat), n ∈ mat f r prev s → n ≤ s.length := by
  intro f
  induction f with
  | zero => intro r prev s n hm; simp [mat] at hm
  | succ f ih => exact matF_le (mat f) ih

lemma execFromAux_some {r : Regex} {s : List Char} :
    ∀ (fuel i idx len : Nat),
      execFromAux r s fuel i = some (idx, len) →
      i ≤ idx ∧ idx ≤ s.length ∧
        len ∈ matchLens r (if idx = 0 then none else s[idx-1]?) (s.drop idx) := by
  intro fuel
  induction fuel with
  | zero => intro i idx len h; simp [execFromAux] at h
  | succ fuel ih =>
      intro i idx len h
      simp only [execFromAux] at h
      by_cases hi : i > s.length
      · simp [hi] at h
      · simp only [hi, if_false] at h
        cases hh : (matchLens r (if i = 0 then none else s[i-1]?) (s.drop i)).head? with
        | some n =>
            rw [hh] at h
            simp only [Option.some_inj, Prod.mk.injEq] at h
            obtain ⟨rfl, rfl⟩ := h
            refine ⟨le_refl _, by omega, ?_⟩
            obtain ⟨ys, hys⟩ := List.head?_eq_some_iff.mp hh
            rw [hys]
            exact List.mem_cons_self _ _
        | none =>
            rw [hh] at h
            obtain ⟨h1, h2, h3⟩ := ih (i+1) idx len h
            exact ⟨by omega, h2, h3⟩

lemma execFrom_bounds {r : Regex} {s : List Char} {li idx len : Nat}
    (hr : nonNullable r = true)
    (h : execFrom r s li = some (idx, len)) :
    li ≤ idx ∧ 0 < len ∧ idx + len ≤ s.length := by
  obtain ⟨h1, h2, h3⟩ := execFromAux_some _ _ _ _ h
  simp only [matchLens] at h3
  have hp := mat_pos _ _ _ _ _ hr h3
  have hl := mat_le _ _ _ _ _ h3
  rw [List.length_drop] at hl
  exact ⟨h1, hp, by omega⟩

lemma execLoop_isSome {r : Regex} {s : List Char} (hr : nonNullable r = true) :
    ∀ (fuel li : Nat), s.length + 1 - li < fuel →
      (execLoop r s fuel li).isSome = true := by
  intro fuel
  induction fuel with
  | zero => intro li h; exact absurd h (Nat.not_lt_zero _)
  | succ fuel ih =>
      intro li h
      simp only [execLoop]
      cases he : execFrom r s li with
      | none => simp
      | some m =>
          obtain ⟨idx, len⟩ := m
          obtain ⟨h1, h2, h3⟩ := execFrom_bounds hr he
          have hrec := ih (idx + len) (by omega)
          cases hE : execLoop r s fuel (idx + len) with
          | none => rw [hE] at hrec; simp at hrec
          | some l => simp [hE]

/-! ### Supporting lemmas about substring occurrence -/

lemma startsWithL_iff {pat s : List Char} :
    startsWithL pat s = true ↔ s.take pat.length = pat := by
  simp [startsWithL]

lemma occursAtPos_nil {pat : List Char} {j : Nat} :
    occursAtPos pat [] j ↔ pat = [] := by
  simp [occursAtPos, eq_comm]

lemma occursAtPos_cons_succ {pat : List Char} {c : Char} {cs : List Char}
    {j : Nat} : occursAtPos pat (c :: cs) (j+1) ↔ occursAtPos pat cs j := by
  simp [occursAtPos]

lemma occursAtPos_zero {pat s : List Char} :
    occursAtPos pat s 0 ↔ s.take pat.length = pat := by
  simp [occursAtPos]

lemma occursAtPos_le {pat s : List Char} {j : Nat} (hpat : pat ≠ [])
    (h : occursAtPos pat s j) : j + pat.length ≤ s.length := by
  have hlen := congrArg List.length h
  simp only [List.length_take, List.length_drop] at hlen
  have hmin := min_eq_left_iff.mp hlen
  have hp : 0 < pat.length := List.length_pos.mpr hpat
  omega

lemma firstOccIdx_some_occurs {pat : List Char} :
    ∀ (s : List Char) (j : Nat), firstOccIdx pat s = some j →
      occursAtPos pat s j := by
  intro s
  induction s with
  | nil =>
      intro j h
      simp only [firstOccIdx] at h
      split at h
      · rename_i hp
        simp only [Option.some_inj] at h
        subst h
        rw [occursAtPos_nil]
        exact List.isEmpty_iff.mp hp
      · exact absurd h (by simp)
  | cons c cs ih =>
      intro j h
      simp only [firstOccIdx] at h
      split at h
      · rename_i hs
        simp only [Option.some_inj] at h
        subst h
        exact occursAtPos_zero.mpr (startsWithL_iff.mp hs)
      · rename_i hs
        rw [Option.map_eq_some'] at h
        obtain ⟨j', hj', rfl⟩ := h
        exact occursAtPos_cons_succ.mpr (ih j' hj')

lemma firstOccIdx_isSome_iff {pat : List Char} :
    ∀ (s : List Char),
      (firstOccIdx pat s).isSome = true ↔ ∃ j, occursAtPos pat s j := by
  intro s
  induction s with
  | nil =>
      constructor
      · intro h
        simp only [firstOccIdx] at h
        split at h
        · rename_i hp
          rw [List.isEmpty_iff] at hp
          exact ⟨0, by simp [occursAtPos, hp]⟩
        · simp at h
      · rintro ⟨j, hj⟩
        rw [occursAtPos_nil] at hj
        simp [firstOccIdx, hj]
  | cons c cs ih =>
      constructor
      · intro h
        simp only [firstOccIdx] at h
        split at h
        · rename_i hs
          exact ⟨0, occursAtPos_zero.mpr (startsWithL_iff.mp hs)⟩
        · rename_i hs
          rw [show (Option.map (fun j => j+1) (firstOccIdx pat cs)) =
            ((fun j => j+1) <$> (firstOccIdx pat cs)) from rfl,
            Option.isSome_map] at h
          obtain ⟨j, hj⟩ := ih.mp h
          exact ⟨j+1, occursAtPos_cons_succ.mpr hj⟩
      · rintro ⟨j, hj⟩
        simp only [firstOccIdx]
        split
        · simp
        · rename_i hs
          rw [show (Option.map (fun j => j+1) (firstOccIdx pat cs)) =
            ((fun j => j+1) <$> (firstOccIdx pat cs)) from rfl,
            Option.isSome_map]
          apply ih.mpr
          cases j with
          | zero =>
              rw [occursAtPos_zero] at hj
              exact absurd (startsWithL_iff.mpr hj) (by simp [hs])
          | succ j =>
              rw [occursAtPos_cons_succ] at hj
              exact ⟨j, hj⟩

lemma lastOccIdx_cons (pat : List Char) (c : Char) (cs : List Char) :
    lastOccIdx pat (c :: cs) =
      match lastOccIdx pat cs with
      | some j => some (j+1)
      | none => if startsWithL pat (c :: cs) then some 0 else none := rfl

lemma lastOccIdx_none_not_occurs {pat : List Char} (hpat : pat ≠ []) :
    ∀ (s : List Char) (k : Nat), lastOccIdx pat s = none →
      ¬ occursAtPos pat s k := by
  intro s
  induction s with
  | nil =>
      intro k _ hk
      rw [occursAtPos_nil] at hk
      exact hpat hk
  | cons c cs ih =>
      intro k h hk
      rw [lastOccIdx_cons] at h
      cases hrec : lastOccIdx pat cs with
      | some j => simp only [hrec] at h; exact Option.noConfusion h
      | none =>
          simp only [hrec] at h
          split at h
          · simp at h
          · rename_i hs
            cases k with
            | zero =>
                rw [occursAtPos_zero] at hk
                exact hs (startsWithL_iff.mpr hk)
            | succ k =>
                rw [occursAtPos_cons_succ] at hk
                exact ih k hrec hk

lemma lastOccIdx_some_occurs {pat : List Char} (hpat : pat ≠ []) :
    ∀ (s : List Char) (j : Nat), lastOccIdx pat s = some j →
      occursAtPos pat s j := by
  intro s
  induction s with
  | nil =>
      intro j h
      simp only [lastOccIdx] at h
      split at h
      · rename_i hp
        rw [List.isEmpty_iff] at hp
        exact absurd hp hpat
      · simp at h
  | cons c cs ih =>
      intro j h
      rw [lastOccIdx_cons] at h
      cases hrec : lastOccIdx pat cs with
      | some j' =>
          simp only [hrec, Option.some_inj] at h
          subst h
          exact occursAtPos_cons_succ.mpr (ih j' hrec)
      | none =>
          simp only [hrec] at h
          split at h
          · rename_i hs
            simp only [Option.some_inj] at h
            subst h
            exact occursAtPos_zero.mpr (startsWithL_iff.mp hs)
          · simp at h

lemma lastOccIdx_ge {pat : List Char} (hpat : pat ≠ []) :
    ∀ (s : List Char) (j k : Nat), lastOccIdx pat s = some j →
      occursAtPos pat s k → k ≤ j := by
  intro s
  induction s with
  | nil =>
      intro j k _ hk
      rw [occursAtPos_nil] at hk
      exact absurd hk hpat
  | cons c cs ih =>
      intro j k h hk
      rw [lastOccIdx_cons] at h
      cases hrec : lastOccIdx pat cs with
      | some j' =>
          simp only [hrec, Option.some_inj] at h
          subst h
          cases k with
          | zero => omega
          | succ k =>
              rw [occursAtPos_cons_succ] at hk
              have := ih j' k hrec hk
              omega
      | none =>
          simp only [hrec] at h
          split at h
          · simp only [Option.some_inj] at h
            subst h
            cases k with
            | zero => omega
            | succ k =>
                rw [occursAtPos_cons_succ] at hk
                exact absurd hk (lastOccIdx_none_not_occurs hpat cs k hrec)
          · simp at h

/-! ### Supporting lemmas about the scan pipeline -/

lemma mem_findPatternMatches_elim {content : List Char}
    {lines : List (List Char)} {p : VulnerabilityPattern} {i : IssueCore}
    (h : i ∈ findPatternMatches content lines p) :
    i.severity = p.severity ∧ i.type = p.type ∧
      isInComment (lines.getD (i.line - 1) []) i.column = false := by
  simp only [findPatternMatches, List.mem_filterMap] at h
  obtain ⟨m, -, hm⟩ := h
  split at hm
  · exact Option.noConfusion hm
  · rename_i hc
    rw [Option.some_inj] at hm
    subst hm
    refine ⟨rfl, rfl, ?_⟩
    rwa [Bool.not_eq_true] at hc

lemma mem_scanContent_elim {content : List Char} {i : IssueCore}
    (h : i ∈ scanContent content) :
    (∃ p ∈ vulnerabilityPatterns, i.severity = p.severity ∧ i.type = p.type) ∧
      isInComment ((splitNl content).getD (i.line - 1) []) i.column = false := by
  simp only [scanContent, List.mem_flatMap] at h
  obtain ⟨p, hp, hm⟩ := h
  obtain ⟨h1, h2, h3⟩ := mem_findPatternMatches_elim hm
  exact ⟨⟨p, hp, h1, h2⟩, h3⟩

lemma mem_scanFile_elim {fp rp : String} {rr : Option (List Char)}
    {i : SecurityIssue} (h : i ∈ scanFile fp rp rr) :
    ∃ p ∈ vulnerabilityPatterns,
      i.severity = p.severity ∧ i.type = p.type := by
  cases rr with
  | none => simp [scanFile] at h
  | some content =>
      simp only [scanFile, List.mem_map] at h
      obtain ⟨m, hm, rfl⟩ := h
      obtain ⟨⟨p, hp, h1, h2⟩, -⟩ := mem_scanContent_elim hm
      exact ⟨p, hp, h1, h2⟩

lemma mem_scanLoop_elim :
    ∀ (files : List CollectedFile) (i : SecurityIssue),
      i ∈ (scanLoop files).1 →
      ∃ p ∈ vulnerabilityPatterns,
        i.severity = p.severity ∧ i.type = p.type := by
  intro files
  induction files with
  | nil => intro i h; simp [scanLoop] at h
  | cons f fs ih =>
      intro i h
      simp only [scanLoop, List.mem_append] at h
      rcases h with h | h
      · exact mem_scanFile_elim h
      · exact ih i h

lemma mem_scanWorkspace_issues_elim {files : List CollectedFile}
    {d t : Nat} {i : SecurityIssue}
    (h : i ∈ (scanWorkspace files d t).issues) :
    ∃ p ∈ vulnerabilityPatterns,
      i.severity = p.severity ∧ i.type = p.type := by
  simp only [scanWorkspace] at h
  exact mem_scanLoop_elim _ i h

lemma length_filter_severities :
    ∀ (l : List SecurityIssue),
      (∀ i ∈ l, i.severity = "critical" ∨ i.severity = "high" ∨
        i.severity = "medium" ∨ i.severity = "low") →
      l.length =
        (l.filter (fun i => i.severity == "critical")).length +
        (l.filter (fun i => i.severity == "high")).length +
        (l.filter (fun i => i.severity == "medium")).length +
        (l.filter (fun i => i.severity == "low")).length := by
  intro l
  induction l with
  | nil => intro _; simp
  | cons a l ih =>
      intro h
      have ha := h a (List.mem_cons_self a l)
      have hl := fun i hi => h i (List.mem_cons_of_mem a hi)
      have ihl := ih hl
      rcases ha with ha | ha | ha | ha <;>
        simp [List.filter_cons, ha, List.length_cons, ihl] <;> omega

lemma scanPatternsSt_fst (content : List Char) (lines : List (List Char)) :
    ∀ (ps : List VulnerabilityPattern) (sts : List Nat),
      (scanPatternsSt content lines ps sts).1 =
        ps.flatMap (fun p => findPatternMatches content lines p) := by
  intro ps
  induction ps with
  | nil => intro sts; simp [scanPatternsSt]
  | cons p ps ih =>
      intro sts
      simp [scanPatternsSt, findPatternMatchesSt, ih]

lemma scanFileSt_fst (fp rp : String) (rr : Option (List Char))
    (sts : List Nat) :
    (scanFileSt fp rp rr sts).1 = scanFile fp rp rr := by
  cases rr with
  | none => rfl
  | some content =>
      simp [scanFileSt, scanFile, scanContent, scanPatternsSt_fst]

lemma scanLoopSt_fst :
    ∀ (files : List CollectedFile) (sts : List Nat),
      (scanLoopSt files sts).1 = scanLoop files := by
  intro files
  induction files with
  | nil => intro sts; rfl
  | cons f fs ih =>
      intro sts
      simp [scanLoopSt, scanLoop, scanFileSt_fst, ih]

lemma scanWorkspaceSt_fst (files : List CollectedFile) (sts : List Nat)
    (d t : Nat) :
    (scanWorkspaceSt files sts d t).1 = scanWorkspace files d t := by
  simp [scanWorkspaceSt, scanWorkspace, scanLoopSt_fst]

/-! ### The claims -/

/-- C1: for every scan result returned by the workspace orchestrator's
scan, `totalIssues` equals `issues.length`, and `criticalCount`,
`highCount`, `mediumCount`, `lowCount` equal the number of issues in the
result's issue list whose severity is respectively critical, high, medium
and low; hence `totalIssues` is the sum of the four counts. -/
theorem c1_aggregate_invariant :
    ∀ (files : List CollectedFile) (d t : Nat),
      (scanWorkspace files d t).totalIssues =
          (scanWorkspace files d t).issues.length ∧
      (scanWorkspace files d t).criticalCount =
          ((scanWorkspace files d t).issues.filter
            (fun i => i.severity == "critical")).length ∧
      (scanWorkspace files d t).highCount =
          ((scanWorkspace files d t).issues.filter
            (fun i => i.severity == "high")).length ∧
      (scanWorkspace files d t).mediumCount =
          ((scanWorkspace files d t).issues.filter
            (fun i => i.severity == "medium")).length ∧
      (scanWorkspace files d t).lowCount =
          ((scanWorkspace files d t).issues.filter
            (fun i => i.severity == "low")).length ∧
      (scanWorkspace files d t).totalIssues =
        (scanWorkspace files d t).criticalCount +
        (scanWorkspace files d t).highCount +
        (scanWorkspace files d t).mediumCount +
        (scanWorkspace files d t).lowCount := by
  intro files d t
  refine ⟨rfl, rfl, rfl, rfl, rfl, ?_⟩
  have hmem : ∀ i ∈ (scanWorkspace files d t).issues,
      i.severity = "critical" ∨ i.severity = "high" ∨
      i.severity = "medium" ∨ i.severity = "low" := by
    intro i hi
    obtain ⟨p, hp, hsev, -⟩ := mem_scanWorkspace_issues_elim hi
    have hall : vulnerabilityPatterns.all (fun q =>
        q.severity == "critical" || q.severity == "high" ||
        q.severity == "medium" || q.severity == "low") = true := by decide
    have hq := List.all_eq_true.mp hall p hp
    rw [hsev]
    simp only [Bool.or_eq_true, beq_iff_eq] at hq
    tauto
  exact length_filter_severities _ hmem

/-- C2: the risk classifier realises the five-clause decision table,
evaluated in order with the first match winning: CRITICAL when
criticalCount > 0; else HIGH when highCount ≥ 5; else MEDIUM when
highCount > 0 or mediumCount ≥ 10; else LOW when mediumCount > 0 or
lowCount > 0; else CLEAN. -/
theorem c2_risk_level_decision_table :
    ∀ result : SecurityScanResult,
      (result.criticalCount > 0 → calculateRiskLevel result = "CRITICAL") ∧
      (result.criticalCount = 0 → result.highCount ≥ 5 →
        calculateRiskLevel result = "HIGH") ∧
      (result.criticalCount = 0 → result.highCount < 5 →
        (result.highCount > 0 ∨ result.mediumCount ≥ 10) →
        calculateRiskLevel result = "MEDIUM") ∧
      (result.criticalCount = 0 → result.highCount = 0 →
        result.mediumCount < 10 →
        (result.mediumCount > 0 ∨ result.lowCount > 0) →
        calculateRiskLevel result = "LOW") ∧
      (result.criticalCount = 0 → result.highCount = 0 →
        result.mediumCount = 0 → result.lowCount = 0 →
        calculateRiskLevel result = "CLEAN") := by
  intro result
  refine ⟨?_, ?_, ?_, ?_, ?_⟩
  · intro h1
    simp only [calculateRiskLevel, Bool.or_eq_true, decide_eq_true_eq]
    split_ifs with hA hB hC hD <;> first | rfl | (exfalso; omega)
  · intro h1 h2
    simp only [calculateRiskLevel, Bool.or_eq_true, decide_eq_true_eq]
    split_ifs with hA hB hC hD <;> first | rfl | (exfalso; omega)
  · intro h1 h2 h3
    simp only [calculateRiskLevel, Bool.or_eq_true, decide_eq_true_eq]
    split_ifs with hA hB hC hD <;>
      first
        | rfl
        | (exfalso; omega)
        | (exact absurd h3 hC)
  · intro h1 h2 h3 h4
    simp only [calculateRiskLevel, Bool.or_eq_true, decide_eq_true_eq]
    split_ifs with hA hB hC hD <;>
      first
        | rfl
        | (exfalso; omega)
        | (exfalso; rcases hC with hC | hC <;> omega)
        | (exact absurd h4 hD)
  · intro h1 h2 h3 h4
    simp only [calculateRiskLevel, Bool.or_eq_true, decide_eq_true_eq]
    split_ifs with hA hB hC hD <;>
      first
        | rfl
        | (exfalso; omega)
        | (exfalso; rcases hC with hC | hC <;> omega)
        | (exfalso; rcases hD with hD | hD <;> omega)

/-- Witness for C2: each clause of the decision table applied at a concrete
result realising its guard. -/
theorem c2_risk_level_decision_table_witness :
    calculateRiskLevel ⟨[], 0, 3, 1, 0, 0, 0, 0, 0⟩ = "CRITICAL" ∧
    calculateRiskLevel ⟨[], 0, 5, 0, 5, 0, 0, 0, 0⟩ = "HIGH" ∧
    calculateRiskLevel ⟨[], 0, 1, 0, 1, 0, 0, 0, 0⟩ = "MEDIUM" ∧
    calculateRiskLevel ⟨[], 0, 1, 0, 0, 1, 0, 0, 0⟩ = "LOW" ∧
    calculateRiskLevel ⟨[], 0, 0, 0, 0, 0, 0, 0, 0⟩ = "CLEAN" :=
  ⟨(c2_risk_level_decision_table _).1 (by decide),
   (c2_risk_level_decision_table _).2.1 (by decide) (by decide),
   (c2_risk_level_decision_table _).2.2.1 (by decide) (by decide)
     (Or.inl (by decide)),
   (c2_risk_level_decision_table _).2.2.2.1 (by decide) (by decide)
     (by decide) (Or.inl (by decide)),
   (c2_risk_level_decision_table _).2.2.2.2 (by decide) (by decide)
     (by decide) (by decide)⟩

/-- C3: what the code actually does at the claim's failing input.  A
workspace is scanned whose first JS file cannot be read; the claim says
that file is excluded from `filesScanned`, but the scan counts it
(`filesScanned = 2`, not 1): `scanFile` swallows the read error internally
and returns the empty issue list, so the orchestrator's `catch` — the only
place that skips `filesScanned++` — is unreachable.  The remaining file is
still scanned and its issue reported, so the continuation half of the
claim does hold. -/
theorem c3_read_error_file_still_counted :
    (scanWorkspace
      [⟨"bad.js", "bad.js", none⟩,
       ⟨"good.js", "good.js", some "eval(x);".data⟩] 0 0).filesScanned = 2 ∧
    ((scanWorkspace
      [⟨"bad.js", "bad.js", none⟩,
       ⟨"good.js", "good.js", some "eval(x);".data⟩] 0 0).issues.map
        (fun i => (i.relativePath, i.type))) =
      [("good.js", "unsafe-eval")] := by
  constructor
  · decide
  · decide

/-- C4 counterexample: in the file `"/*\neval(a)\n*/"` the eval occurrence
on line 2 lies after an unterminated block-comment opener on the prior
line 1 and before its closer on line 3, yet the scan still reports it —
the filter does not suppress matches under block comments opened on a
prior line. -/
theorem c4_counterexample_prior_line_opener :
    (scanContent ("/*\neval(a)\n*/".data)).map
      (fun i => (i.type, i.line, i.column)) = [("unsafe-eval", 2, 1)] := by
  decide

/-- C4 as amended: the comment filter suppresses a match at (line, column)
exactly when a `//` marker occurs within the first `column` characters of
the match's own line, or a block-comment opener occurs within that same
prefix with no closer at or after it in that prefix.  The filter never
inspects prior lines. -/
theorem c4_comment_filter_current_line_only :
    ∀ (line : List Char) (column : Nat),
      isInComment line column = true ↔ suppressedSpec line column := by
  intro line column
  have hss : slashSlash ≠ ([] : List Char) := by simp [slashSlash]
  have hst : slashStar ≠ ([] : List Char) := by simp [slashStar]
  have hsl : starSlash ≠ ([] : List Char) := by simp [starSlash]
  simp only [isInComment, suppressedSpec]
  cases h1 : firstOccIdx slashSlash (line.take column) with
  | some j =>
      have hocc := firstOccIdx_some_occurs _ j h1
      have hle := occursAtPos_le hss hocc
      have hcol : j < column := by
        have hlen : (line.take column).length ≤ column := by
          rw [List.length_take]
          exact min_le_left _ _
        have : slashSlash.length = 2 := rfl
        omega
      dsimp only
      simp only [decide_eq_true_eq]
      rw [if_pos hcol]
      constructor
      · intro _
        exact Or.inl ⟨j, hocc⟩
      · intro _
        rfl
  | none =>
      have hnoss : ¬ ∃ j, occursAtPos slashSlash (line.take column) j := by
        intro hex
        have hsome := (firstOccIdx_isSome_iff (line.take column)).mpr hex
        rw [h1] at hsome
        simp at hsome
      dsimp only
      simp only [Bool.false_eq_true, if_false]
      cases h2 : lastOccIdx slashStar (line.take column) with
      | none =>
          dsimp only
          constructor
          · intro h
            exact absurd h (by simp)
          · rintro (hex | ⟨j, hj, -⟩)
            · exact absurd hex hnoss
            · exact absurd hj (lastOccIdx_none_not_occurs hst _ j h2)
      | some j =>
          cases h3 : lastOccIdx starSlash (line.take column) with
          | none =>
              dsimp only
              constructor
              · intro _
                refine Or.inr ⟨j, lastOccIdx_some_occurs hst _ j h2, ?_⟩
                intro k hk
                exact absurd hk (lastOccIdx_none_not_occurs hsl _ k h3)
              · intro _
                rfl
          | some k0 =>
              dsimp only
              simp only [decide_eq_true_eq]
              constructor
              · intro h
                refine Or.inr ⟨j, lastOccIdx_some_occurs hst _ j h2, ?_⟩
                intro k hk
                have hkk := lastOccIdx_ge hsl _ k0 k h3 hk
                omega
              · rintro (hex | ⟨j', hj', hall⟩)
                · exact absurd hex hnoss
                · have hj'le := lastOccIdx_ge hst _ j j' h2 hj'
                  have hk0 := lastOccIdx_some_occurs hsl _ k0 h3
                  have hlt := hall k0 hk0
                  omega

/-- C5 counterexample: for a pattern that can match the empty string
(here `a*` against `"b"`), `exec` reports a zero-length match at index 0;
the loop's cursor update `lastIndex = index + length` leaves the cursor at
0 instead of advancing past the match end, and the exec loop never reaches
its exit (500 fuel is exhausted without terminating). -/
theorem c5_counterexample_empty_match_loops :
    execFrom (.starG (rchar 'a')) "b".data 0 = some (0, 0) ∧
    execLoop (.starG (rchar 'a')) "b".data 500 0 = none := by
  constructor
  · decide
  · decide

/-- C5 as amended: every pattern of the catalog matches only nonempty
text, and for every such non-nullable pattern the match-locating loop
terminates on every content: each reported match has positive length, the
cursor `lastIndex = index + length` strictly advances, and fuel
`content.length + 2` always reaches the loop's exit.  The code has no
zero-length-advance guard, so a pattern that can match the empty string
loops forever (see the counterexample). -/
theorem c5_loop_terminates_on_catalog :
    (vulnerabilityPatterns.all (fun p => nonNullable p.pattern) = true) ∧
    ∀ (r : Regex) (s : List Char), nonNullable r = true →
      (execLoop r s (s.length + 2) 0).isSome = true := by
  refine ⟨by decide, ?_⟩
  intro r s hr
  exact execLoop_isSome hr (s.length + 2) 0 (by omega)

/-- Witness for C5 as amended, at the catalog's eval pattern and a content
with two matches. -/
theorem c5_loop_terminates_on_catalog_witness :
    (execLoop evalPat "eval(x); eval(y);".data
      ("eval(x); eval(y);".data.length + 2) 0).isSome = true :=
  c5_loop_terminates_on_catalog.2 evalPat "eval(x); eval(y);".data (by decide)

/-- C6: no reported issue ever sits at a position the comment filter
suppresses — in particular a rule-matching occurrence after `//` on its
line yields no issue — and concretely `"// eval(userInput);"` yields zero
issues while the same occurrence before the marker,
`"eval(userInput); //"`, yields exactly the unsafe-eval issue. -/
theorem c6_comment_suppression :
    (∀ content : List Char, (scanContent content).all
      (fun i => !(isInComment ((splitNl content).getD (i.line - 1) [])
        i.column)) = true) ∧
    scanContent "// eval(userInput);".data = [] ∧
    (scanContent "eval(userInput); //".data).map
      (fun i => (i.type, i.line, i.column)) = [("unsafe-eval", 1, 1)] := by
  refine ⟨?_, by decide, by decide⟩
  intro content
  rw [List.all_eq_true]
  intro i hi
  obtain ⟨-, h3⟩ := mem_scanContent_elim hi
  rw [List.getD_eq_getElem?_getD] at h3
  simp [h3]

/-- C7: scanning a file whose content is exactly the single line
`const apiKey = "sk_live_abcdef1234567890";` produces exactly one issue,
of kind hardcoded-secret, severity critical, CWE-798, at line 1. -/
theorem c7_hardcoded_secret_scenario :
    (scanFile "app.js" "app.js"
      (some "const apiKey = \"sk_live_abcdef1234567890\";".data)).map
      (fun i => (i.type, i.severity, i.cweId, i.line)) =
      [("hardcoded-secret", "critical", some "CWE-798", 1)] := by
  decide

/-- C8: scanning the same unchanged file set twice through the shared
stateful regex objects yields issue-for-issue identical results — the
second scan starts from whatever cursors the first scan left stored in the
`RegExp` objects, and every field of the result except `scanDuration` and
`timestamp` coincides (each `findPatternMatches` call resets
`pattern.pattern.lastIndex` to 0 before its loop, so no match state leaks
between scans). -/
theorem c8_scan_idempotent :
    ∀ (files : List CollectedFile) (sts : List Nat) (d1 t1 d2 t2 : Nat),
      (scanWorkspaceSt files
        (scanWorkspaceSt files sts d1 t1).2 d2 t2).1.issues =
          (scanWorkspaceSt files sts d1 t1).1.issues ∧
      (scanWorkspaceSt files
        (scanWorkspaceSt files sts d1 t1).2 d2 t2).1.filesScanned =
          (scanWorkspaceSt files sts d1 t1).1.filesScanned ∧
      (scanWorkspaceSt files
        (scanWorkspaceSt files sts d1 t1).2 d2 t2).1.totalIssues =
          (scanWorkspaceSt files sts d1 t1).1.totalIssues ∧
      (scanWorkspaceSt files
        (scanWorkspaceSt files sts d1 t1).2 d2 t2).1.criticalCount =
          (scanWorkspaceSt files sts d1 t1).1.criticalCount ∧
      (scanWorkspaceSt files
        (scanWorkspaceSt files sts d1 t1).2 d2 t2).1.highCount =
          (scanWorkspaceSt files sts d1 t1).1.highCount ∧
      (scanWorkspaceSt files
        (scanWorkspaceSt files sts d1 t1).2 d2 t2).1.mediumCount =
          (scanWorkspaceSt files sts d1 t1).1.mediumCount ∧
      (scanWorkspaceSt files
        (scanWorkspaceSt files sts d1 t1).2 d2 t2).1.lowCount =
          (scanWorkspaceSt files sts d1 t1).1.lowCount := by
  intro files sts d1 t1 d2 t2
  rw [scanWorkspaceSt_fst, scanWorkspaceSt_fst]
  refine ⟨rfl, rfl, rfl, rfl, rfl, rfl, rfl⟩

/-- C9: a collected file whose lowercased extension is not one of .js,
.jsx, .ts, .tsx, .mjs, .cjs never takes part in the scan: dropping it from
the collection, wherever it sits, leaves the entire scan result —
`filesScanned`, the issues, every count — unchanged, regardless of the
file's content. -/
theorem c9_extension_filter :
    ∀ (pre post : List CollectedFile) (f : CollectedFile) (d t : Nat),
      isJsTsFile f = false →
      scanWorkspace (pre ++ f :: post) d t = scanWorkspace (pre ++ post) d t := by
  intro pre post f d t hf
  have hfilter : (pre ++ f :: post).filter isJsTsFile =
      (pre ++ post).filter isJsTsFile := by
    simp [List.filter_append, List.filter_cons, hf]
  simp only [scanWorkspace, hfilter]

/-- Witness for C9: a Python file containing a would-be vulnerability is
dropped without changing the scan of the surrounding workspace. -/
theorem c9_extension_filter_witness :
    isJsTsFile ⟨"/w/a.py", "a.py", some "eval(x);".data⟩ = false ∧
    scanWorkspace
      ([⟨"/w/b.js", "b.js", some "eval(y);".data⟩] ++
        ⟨"/w/a.py", "a.py", some "eval(x);".data⟩ :: []) 0 0 =
      scanWorkspace ([⟨"/w/b.js", "b.js", some "eval(y);".data⟩] ++ []) 0 0 :=
  ⟨by decide,
   c9_extension_filter [⟨"/w/b.js", "b.js", some "eval(y);".data⟩] []
     ⟨"/w/a.py", "a.py", some "eval(x);".data⟩ 0 0 (by decide)⟩

/-- C10: the kind enumeration contains xxe-vulnerability,
insecure-deserialization and csrf-vulnerability, but no catalog rule
carries any of those kinds, and since every emitted issue copies its kind
from a catalog rule, no scan result ever contains an issue of those three
kinds. -/
theorem c10_reserved_kinds_never_emitted :
    (["xxe-vulnerability", "insecure-deserialization",
      "csrf-vulnerability"].all
        (fun k => securityVulnerabilityTypes.contains k) = true) ∧
    (vulnerabilityPatterns.all (fun p =>
      !(["xxe-vulnerability", "insecure-deserialization",
         "csrf-vulnerability"].contains p.type)) = true) ∧
    ∀ (files : List CollectedFile) (d t : Nat),
      (scanWorkspace files d t).issues.all (fun i =>
        !(["xxe-vulnerability", "insecure-deserialization",
           "csrf-vulnerability"].contains i.type)) = true := by
  refine ⟨by decide, by decide, ?_⟩
  intro files d t
  rw [List.all_eq_true]
  intro i hi
  obtain ⟨p, hp, -, htype⟩ := mem_scanWorkspace_issues_elim hi
  have hall : vulnerabilityPatterns.all (fun q =>
      !(["xxe-vulnerability", "insecure-deserialization",
         "csrf-vulnerability"].contains q.type)) = true := by decide
  have hq := List.all_eq_true.mp hall p hp
  rw [htype]
  exact hq

end TraceMap
